import Mathlib

set_option linter.unusedVariables false

/-! Shallow embedding of the hh-go-parser crawl orchestrator and its
storage encoders, translated from the Go sources
(internal/domain/entities/resume.go, internal/domain/usecases/resume_usecase.go,
internal/adapters/storage/storage.go, internal/adapters/storage/sql_storage.go,
and the CSV storage file).  Machine integers that only count upwards are
modelled as Nat; the remote source is modelled by the list of responses it
gives to the successive page fetches; file sinks are modelled by their
decoded content (`Option` is `none` when the file does not exist). -/

/-- Job: one period of employment (entities/resume.go). -/
structure Job where
  company : String
  position : String
  startDate : String
  endDate : String
  description : String
  industry : String
deriving DecidableEq, Repr

/-- Edu: one education entry (entities/resume.go). -/
structure Edu where
  institution : String
  faculty : String
  specialty : String
  year : String
  level : String
deriving DecidableEq, Repr

/-- Social: a social-network profile (entities/resume.go). -/
structure Social where
  type : String
  url : String
deriving DecidableEq, Repr

/-- Contact: contact information (entities/resume.go). -/
structure Contact where
  phone : String
  email : String
  telegram : String
  skype : String
  social : List Social
deriving DecidableEq, Repr

/-- Salary: desired salary (entities/resume.go). -/
structure Salary where
  amount : Int
  currency : String
  gross : Bool
deriving DecidableEq, Repr

/-- Resume: the main record (entities/resume.go).  The Go `time.Time`
field `LastUpdate` is abstracted as an opaque string naming the instant;
the two Go formatting layouts used by the storage encoders are modelled
by the injective tagging functions `formatDateTime` and `formatRFC3339`
below.  No verified claim inspects the formatted timestamp. -/
structure Resume where
  id : String
  name : String
  skills : List String
  experience : List Job
  education : List Edu
  lastUpdate : String
  contact : Contact
  url : String
  title : String
  salary : Option Salary
  location : String
  age : Int
  gender : String
deriving DecidableEq, Repr

/-- An empty contact block, used to build concrete test records. -/
def emptyContact : Contact := ⟨"", "", "", "", []⟩

/-- A resume with every field empty, used to build concrete test records. -/
def baseResume : Resume :=
  ⟨"", "", [], [], [], "", emptyContact, "", "", none, "", 0, ""⟩

/-- Resume.IsValid (entities/resume.go): true iff the ID is non-empty and
the name or the title is non-empty. -/
def Resume.IsValid (r : Resume) : Bool :=
  r.id != "" && (r.name != "" || r.title != "")

/-- validateResume (resume_usecase.go): base validation via
`Resume.IsValid`, then the additional check rejecting records with
neither skills nor experience. -/
def validateResume (r : Resume) : Bool :=
  if !r.IsValid then false
  else if r.skills.length == 0 && r.experience.length == 0 then false
  else true

/-- Loop body of normalizeSkills (resume_usecase.go): `seen` is the set of
keys of the Go `seen` map, which only grows when a skill is appended to
the output. -/
def normalizeSkillsAux : List String → List String → List String
  | _, [] => []
  | seen, skill :: rest =>
      if skill != "" && !seen.contains skill then
        skill :: normalizeSkillsAux (skill :: seen) rest
      else
        normalizeSkillsAux seen rest

/-- normalizeSkills (resume_usecase.go): drops empty entries and repeated
entries, keeping the first occurrence of each skill in order. -/
def normalizeSkills (skills : List String) : List String :=
  normalizeSkillsAux [] skills

/-- enrichResumeData (resume_usecase.go): normalizes the skill list; the
Go function always returns a nil error, so it is modelled as a pure
transformation. -/
def enrichResumeData (r : Resume) : Resume :=
  { r with skills := normalizeSkills r.skills }

/-- ParseResult (resume_usecase.go): the run summary returned to the
caller. -/
structure ParseResult where
  totalFound : Nat
  processedCount : Nat
  savedCount : Nat
  skippedCount : Nat
  errors : List String
deriving DecidableEq, Repr

/-- State carried through the pagination loop of ParseResumesByCriteria:
the in-memory processed set (keys of the Go `uc.processed` map), the
accumulation buffer `allResumes`, and the result counters. -/
structure LoopState where
  processed : List String
  batch : List Resume
  result : ParseResult
deriving DecidableEq, Repr

/-- Body of the per-record loop of ParseResumesByCriteria
(resume_usecase.go lines 80-106): count the record, skip it when its ID
is already processed or when it fails validation, otherwise enrich it,
append it to the buffer, mark its ID processed and count it saved. -/
def processRecord (s : LoopState) (r : Resume) : LoopState :=
  let res := { s.result with processedCount := s.result.processedCount + 1 }
  if s.processed.contains r.id then
    { s with result := { res with skippedCount := res.skippedCount + 1 } }
  else if !validateResume r then
    { s with result := { res with skippedCount := res.skippedCount + 1 } }
  else
    { processed := r.id :: s.processed
      batch := s.batch ++ [enrichResumeData r]
      result := { res with savedCount := res.savedCount + 1 } }

/-- The wrapped per-page search error appended to the result
(resume_usecase.go line 70). -/
def fetchErrorMsg (page : Nat) (e : String) : String :=
  "ошибка поиска на странице " ++ toString page ++ ": " ++ e

/-- The wrapped persist error returned by the run
(resume_usecase.go line 121). -/
def saveErrorMsg (e : String) : String :=
  "ошибка сохранения резюме: " ++ e

/-- Pagination loop of ParseResumesByCriteria (resume_usecase.go lines
63-115).  The remote source is modelled by the list of its responses to
the successive fetches; a response past the end of the list is an empty
page.  Returns the final loop state together with the page numbers that
were fetched, in order. -/
def runPages : Nat → List (Except String (List Resume)) → LoopState →
    LoopState × List Nat
  | page, [], s => (s, [page])
  | page, Except.error e :: _, s =>
      ({ s with result :=
          { s.result with errors := s.result.errors ++ [fetchErrorMsg page e] } },
       [page])
  | page, Except.ok rs :: rest, s =>
      if rs.length == 0 then (s, [page])
      else
        let step := runPages (page + 1) rest (rs.foldl processRecord s)
        (step.1, page :: step.2)

/-- Observable outcome of one ParseResumesByCriteria run: the returned
ParseResult and error, plus the trace needed by the verified claims (the
fetched page numbers, the arguments of every SaveResumes call, and the
final accumulation buffer). -/
structure RunOutput where
  result : ParseResult
  runError : Option String
  fetchPages : List Nat
  persistCalls : List (List Resume)
  finalBatch : List Resume
deriving DecidableEq, Repr

/-- The processed-set seed obtained from the GetSavedResumeIDs answer: a
loading failure is logged and ignored (resume_usecase.go lines 56-59), so
it contributes nothing to the set. -/
def seedOf : Except String (List String) → List String
  | Except.ok ids => ids
  | Except.error e => []

/-- The loop state at the start of a run on a fresh use-case instance:
the processed set seeded by loadProcessedResumes (resume_usecase.go lines
56-59 and 210-225; a loading failure is logged and the run continues with
the empty set), an empty buffer, and zeroed counters. -/
def initState (seedRes : Except String (List String)) : LoopState :=
  ⟨seedOf seedRes, [], ⟨0, 0, 0, 0, []⟩⟩

/-- Flush step of ParseResumesByCriteria (resume_usecase.go lines
117-131): when the buffer is non-empty, SaveResumes is called once with
the whole buffer; its failure is returned as the run's error, with
TotalFound left at its zero initial value because of the early return.
Otherwise TotalFound is set to ProcessedCount and no error is returned.
`save` is the storage's answer to a SaveResumes call (`none` means
success). -/
def flushStep (save : List Resume → Option String)
    (run : LoopState × List Nat) : RunOutput :=
  if run.1.batch.length > 0 then
    match save run.1.batch with
    | some e =>
        ⟨run.1.result, some (saveErrorMsg e), run.2, [run.1.batch], run.1.batch⟩
    | none =>
        ⟨{ run.1.result with totalFound := run.1.result.processedCount }, none,
         run.2, [run.1.batch], run.1.batch⟩
  else
    ⟨{ run.1.result with totalFound := run.1.result.processedCount }, none,
     run.2, [], run.1.batch⟩

/-- ParseResumesByCriteria (resume_usecase.go lines 39-131) for a fresh
use-case instance: seed the processed set, run the pagination loop from
page 0, then flush. -/
def parseResumesByCriteria (seedRes : Except String (List String))
    (pages : List (Except String (List Resume)))
    (save : List Resume → Option String) : RunOutput :=
  flushStep save (runPages 0 pages (initState seedRes))

/-- Abstraction of Go `t.Format("2006-01-02 15:04:05")` on the opaque
instant string (the tabular encoder's timestamp layout). -/
def formatDateTime (t : String) : String := "datetime:" ++ t

/-- Abstraction of Go `t.Format(time.RFC3339)` on the opaque instant
string (the relational-script encoder's timestamp layout). -/
def formatRFC3339 (t : String) : String := "rfc3339:" ++ t

/-- FileStorage.SaveResumes (storage.go): encodes the whole batch as one
JSON array, overwriting the sink.  The sink is modelled by its decoded
content, so the call replaces the sink content with the batch. -/
def FileStorage.SaveResumes (resumes : List Resume) : List Resume := resumes

/-- FileStorage.GetSavedResumeIDs (storage.go): a missing file yields the
empty list; otherwise the sink is decoded and the ID of every stored
record is returned. -/
def FileStorage.GetSavedResumeIDs : Option (List Resume) →
    Except String (List String)
  | none => Except.ok []
  | some rs => Except.ok (rs.map Resume.id)

/-- joinStrings (CSV storage file): joins with a separator, empty on the
empty list. -/
def joinStrings (items : List String) (sep : String) : String :=
  match items with
  | [] => ""
  | x :: rest => rest.foldl (fun acc item => acc ++ sep ++ item) x

/-- CSVStorage.formatSkills (CSV storage file). -/
def formatSkills (skills : List String) : String :=
  joinStrings skills "; "

/-- CSVStorage.formatExperience (CSV storage file). -/
def formatExperience (experience : List Job) : String :=
  joinStrings (experience.map (fun job =>
    job.position ++ " at " ++ job.company ++ " (" ++ job.startDate ++ " - "
      ++ job.endDate ++ ")")) " | "

/-- CSVStorage.formatEducation (CSV storage file). -/
def formatEducation (education : List Edu) : String :=
  joinStrings (education.map (fun edu =>
    edu.institution ++ ", " ++ edu.specialty ++ " (" ++ edu.year ++ ")")) " | "

/-- The CSV header row written by CSVStorage.SaveResumes. -/
def csvHeaders : List String :=
  ["ID", "Name", "Title", "Skills", "Experience", "Education", "Last Update",
   "Phone", "Email", "URL", "Location", "Age", "Gender"]

/-- The CSV data row written for one resume by CSVStorage.SaveResumes. -/
def csvRecord (r : Resume) : List String :=
  [r.id, r.name, r.title, formatSkills r.skills,
   formatExperience r.experience, formatEducation r.education,
   formatDateTime r.lastUpdate, r.contact.phone, r.contact.email,
   r.url, r.location, toString r.age, r.gender]

/-- CSVStorage.SaveResumes (CSV storage file): overwrites the sink with a
header row followed by one row per record.  The sink is modelled at the
row level (Go's encoding/csv quoting round-trips rows of fields). -/
def CSVStorage.SaveResumes (resumes : List Resume) : List (List String) :=
  csvHeaders :: resumes.map csvRecord

/-- CSVStorage.GetSavedResumeIDs (CSV storage file): a missing file
yields the empty list; an unreadable header row is an error; otherwise
the header row is skipped and column 0 of every remaining non-empty row
is returned. -/
def CSVStorage.GetSavedResumeIDs : Option (List (List String)) →
    Except String (List String)
  | none => Except.ok []
  | some [] => Except.error "EOF"
  | some (_ :: rows) => Except.ok (rows.filterMap List.head?)

/-- escape (sql_storage.go): doubles embedded single quotes. -/
def escape (s : String) : String := s.replace "\x27" "\x27\x27"

/-- The fixed schema preamble written by SQLStorage.writeSchema
(sql_storage.go lines 65-113), verbatim. -/
def sqlSchema : String :=
  "\n-- Схема базы данных для резюме\nCREATE TABLE IF NOT EXISTS resumes (\n    id VARCHAR(255) PRIMARY KEY,\n    name VARCHAR(500),\n    title VARCHAR(500),\n    skills TEXT,\n    last_update TIMESTAMP,\n    contact_phone VARCHAR(50),\n    contact_email VARCHAR(255),\n    url VARCHAR(500),\n    location VARCHAR(255),\n    age INT,\n    gender VARCHAR(50),\n    created_at TIMESTAMP DEFAULT CURRENT_TIMESTAMP\n);\n\nCREATE TABLE IF NOT EXISTS experience (\n    id SERIAL PRIMARY KEY,\n    resume_id VARCHAR(255) REFERENCES resumes(id),\n    company VARCHAR(500),\n    position VARCHAR(500),\n    start_date VARCHAR(50),\n    end_date VARCHAR(50),\n    description TEXT,\n    industry VARCHAR(255)\n);\n\nCREATE TABLE IF NOT EXISTS education (\n    id SERIAL PRIMARY KEY,\n    resume_id VARCHAR(255) REFERENCES resumes(id),\n    institution VARCHAR(500),\n    faculty VARCHAR(500),\n    specialty VARCHAR(500),\n    year VARCHAR(50),\n    level VARCHAR(255)\n);\n\n-- Индексы для оптимизации поиска\nCREATE INDEX IF NOT EXISTS idx_resumes_skills ON resumes USING gin (to_tsvector(\x27russian\x27, skills));\nCREATE INDEX IF NOT EXISTS idx_resumes_location ON resumes(location);\nCREATE INDEX IF NOT EXISTS idx_experience_company ON experience(company);\nCREATE INDEX IF NOT EXISTS idx_education_institution ON education(institution);\n\n"

/-- The INSERT ... ON CONFLICT statement written for one resume by
SQLStorage.writeResume (sql_storage.go lines 118-142). -/
def resumeMainSQL (r : Resume) : String :=
  "\nINSERT INTO resumes (\n    id, name, title, skills, last_update,\n    contact_phone, contact_email, url,\n    location, age, gender\n) VALUES (\n    \x27"
    ++ escape r.id ++ "\x27, \x27" ++ escape r.name ++ "\x27, \x27"
    ++ escape r.title ++ "\x27, \x27"
    ++ escape (String.intercalate "; " r.skills) ++ "\x27, \x27"
    ++ formatRFC3339 r.lastUpdate ++ "\x27,\n    \x27"
    ++ escape r.contact.phone ++ "\x27, \x27" ++ escape r.contact.email
    ++ "\x27, \x27" ++ escape r.url ++ "\x27,\n    \x27"
    ++ escape r.location ++ "\x27, " ++ toString r.age ++ ", \x27"
    ++ escape r.gender
    ++ "\x27\n) ON CONFLICT (id) DO UPDATE SET\n    last_update = EXCLUDED.last_update,\n    skills = EXCLUDED.skills;\n"

/-- The INSERT statement written for one experience row by
SQLStorage.writeResume (sql_storage.go lines 149-171). -/
def jobSQL (resumeId : String) (job : Job) : String :=
  "\nINSERT INTO experience (\n    resume_id, company, position,\n    start_date, end_date, description, industry\n) VALUES (\n    \x27"
    ++ escape resumeId ++ "\x27, \x27" ++ escape job.company ++ "\x27, \x27"
    ++ escape job.position ++ "\x27,\n    \x27" ++ escape job.startDate
    ++ "\x27, \x27" ++ escape job.endDate ++ "\x27, \x27"
    ++ escape job.description ++ "\x27, \x27" ++ escape job.industry
    ++ "\x27\n);\n"

/-- The INSERT statement written for one education row by
SQLStorage.writeResume (sql_storage.go lines 174-195). -/
def eduSQL (resumeId : String) (edu : Edu) : String :=
  "\nINSERT INTO education (\n    resume_id, institution, faculty,\n    specialty, year, level\n) VALUES (\n    \x27"
    ++ escape resumeId ++ "\x27, \x27" ++ escape edu.institution
    ++ "\x27, \x27" ++ escape edu.faculty ++ "\x27,\n    \x27"
    ++ escape edu.specialty ++ "\x27, \x27" ++ escape edu.year
    ++ "\x27, \x27" ++ escape edu.level ++ "\x27\n);\n"

/-- Everything SQLStorage.writeResume writes for one resume: the main
upsert, then one insert per experience row, then one per education
row. -/
def resumeSQL (r : Resume) : String :=
  resumeMainSQL r ++ String.join (r.experience.map (jobSQL r.id))
    ++ String.join (r.education.map (eduSQL r.id))

/-- SQLStorage.SaveResumes (sql_storage.go lines 30-55): overwrites the
sink with the schema preamble followed by the per-record statements. -/
def SQLStorage.SaveResumes (resumes : List Resume) : String :=
  sqlSchema ++ String.join (resumes.map resumeSQL)

/-- SQLStorage.GetSavedResumeIDs (sql_storage.go lines 58-62): always the
empty list. -/
def SQLStorage.GetSavedResumeIDs : Except String (List String) :=
  Except.ok []

/-- Number of occurrences of a pattern in a character list. -/
def countOccurAux (pat : List Char) : List Char → Nat
  | [] => 0
  | c :: rest =>
      (if pat.isPrefixOf (c :: rest) then 1 else 0) + countOccurAux pat rest

/-- Number of occurrences of a non-empty pattern string in a string, used
to count the CREATE statements of the schema preamble. -/
def countOccur (s pat : String) : Nat :=
  countOccurAux pat.data s.data

/-! Helper lemmas about the per-record loop body. -/

/-- The record is counted and skipped when its ID is already in the
processed set. -/
lemma processRecord_dup (s : LoopState) (r : Resume)
    (h : s.processed.contains r.id = true) :
    processRecord s r =
      { s with result := { s.result with
          processedCount := s.result.processedCount + 1,
          skippedCount := s.result.skippedCount + 1 } } := by
  have hm : r.id ∈ s.processed := by simpa using h
  simp [processRecord, hm]

/-- The record is counted and skipped when it is new but invalid. -/
lemma processRecord_invalid (s : LoopState) (r : Resume)
    (h : s.processed.contains r.id = false) (hv : validateResume r = false) :
    processRecord s r =
      { s with result := { s.result with
          processedCount := s.result.processedCount + 1,
          skippedCount := s.result.skippedCount + 1 } } := by
  have hm : r.id ∉ s.processed := by simpa using h
  simp [processRecord, hm, hv]

/-- The record is enriched, buffered, marked and counted saved when it is
new and valid. -/
lemma processRecord_save (s : LoopState) (r : Resume)
    (h : s.processed.contains r.id = false) (hv : validateResume r = true) :
    processRecord s r =
      ⟨r.id :: s.processed, s.batch ++ [enrichResumeData r],
       { s.result with
          processedCount := s.result.processedCount + 1,
          savedCount := s.result.savedCount + 1 }⟩ := by
  have hm : r.id ∉ s.processed := by simpa using h
  simp [processRecord, hm, hv]

/-- Enrichment does not change the record identifier. -/
lemma enrichResumeData_id (r : Resume) : (enrichResumeData r).id = r.id := rfl

/-- One loop step adds exactly one to the processed counter. -/
lemma processRecord_processedCount (s : LoopState) (r : Resume) :
    (processRecord s r).result.processedCount = s.result.processedCount + 1 := by
  by_cases h : s.processed.contains r.id = true
  · rw [processRecord_dup s r h]
  · rcases hv : validateResume r with _ | _
    · rw [processRecord_invalid s r (by simpa using h) hv]
    · rw [processRecord_save s r (by simpa using h) hv]

/-- One loop step adds exactly one to the saved-plus-skipped total. -/
lemma processRecord_counts (s : LoopState) (r : Resume) :
    (processRecord s r).result.savedCount + (processRecord s r).result.skippedCount
      = s.result.savedCount + s.result.skippedCount + 1 := by
  by_cases h : s.processed.contains r.id = true
  · rw [processRecord_dup s r h]; dsimp only; omega
  · rcases hv : validateResume r with _ | _
    · rw [processRecord_invalid s r (by simpa using h) hv]; dsimp only; omega
    · rw [processRecord_save s r (by simpa using h) hv]; dsimp only; omega

/-- One loop step never touches the error list. -/
lemma processRecord_errors (s : LoopState) (r : Resume) :
    (processRecord s r).result.errors = s.result.errors := by
  by_cases h : s.processed.contains r.id = true
  · rw [processRecord_dup s r h]
  · rcases hv : validateResume r with _ | _
    · rw [processRecord_invalid s r (by simpa using h) hv]
    · rw [processRecord_save s r (by simpa using h) hv]

/-- One loop step grows the buffer by exactly the growth of the saved
counter. -/
lemma processRecord_batch_saved (s : LoopState) (r : Resume) :
    (processRecord s r).batch.length + s.result.savedCount
      = s.batch.length + (processRecord s r).result.savedCount := by
  by_cases h : s.processed.contains r.id = true
  · rw [processRecord_dup s r h]
  · rcases hv : validateResume r with _ | _
    · rw [processRecord_invalid s r (by simpa using h) hv]
    · rw [processRecord_save s r (by simpa using h) hv]
      simp only [List.length_append, List.length_cons, List.length_nil]
      omega

/-- One loop step only ever adds to the processed set. -/
lemma processRecord_processed_mono (s : LoopState) (r : Resume) (x : String)
    (hx : x ∈ s.processed) : x ∈ (processRecord s r).processed := by
  by_cases h : s.processed.contains r.id = true
  · rw [processRecord_dup s r h]; exact hx
  · rcases hv : validateResume r with _ | _
    · rw [processRecord_invalid s r (by simpa using h) hv]; exact hx
    · rw [processRecord_save s r (by simpa using h) hv]
      exact List.mem_cons_of_mem _ hx

/-! Helper lemmas about folding the loop body over a list of fetched
records. -/

/-- Folding the loop body counts every record exactly once. -/
lemma foldl_processedCount (L : List Resume) : ∀ s : LoopState,
    (L.foldl processRecord s).result.processedCount
      = s.result.processedCount + L.length := by
  induction L with
  | nil => intro s; simp
  | cons r L ih =>
      intro s
      simp only [List.foldl_cons, List.length_cons]
      rw [ih, processRecord_processedCount]; omega

/-- Folding the loop body counts every record as saved or skipped. -/
lemma foldl_counts (L : List Resume) : ∀ s : LoopState,
    (L.foldl processRecord s).result.savedCount
        + (L.foldl processRecord s).result.skippedCount
      = s.result.savedCount + s.result.skippedCount + L.length := by
  induction L with
  | nil => intro s; simp
  | cons r L ih =>
      intro s
      simp only [List.foldl_cons, List.length_cons]
      rw [ih, processRecord_counts]; omega

/-- Folding the loop body never touches the error list. -/
lemma foldl_errors (L : List Resume) : ∀ s : LoopState,
    (L.foldl processRecord s).result.errors = s.result.errors := by
  induction L with
  | nil => intro s; rfl
  | cons r L ih =>
      intro s
      simp only [List.foldl_cons]
      rw [ih, processRecord_errors]

/-- Folding the loop body grows the buffer by exactly the growth of the
saved counter. -/
lemma foldl_batch_saved (L : List Resume) : ∀ s : LoopState,
    (L.foldl processRecord s).batch.length + s.result.savedCount
      = s.batch.length + (L.foldl processRecord s).result.savedCount := by
  induction L with
  | nil => intro s; rfl
  | cons r L ih =>
      intro s
      simp only [List.foldl_cons]
      have h1 := ih (processRecord s r)
      have h2 := processRecord_batch_saved s r
      omega

/-- Folding the loop body only ever adds to the processed set. -/
lemma foldl_processed_mono (L : List Resume) : ∀ (s : LoopState) (x : String),
    x ∈ s.processed → x ∈ (L.foldl processRecord s).processed := by
  induction L with
  | nil => intro s x hx; exact hx
  | cons r L ih =>
      intro s x hx
      simp only [List.foldl_cons]
      exact ih _ x (processRecord_processed_mono s r x hx)

/-- After the fold, every record of the stream has its ID in the
processed set or is invalid. -/
lemma foldl_coverage (L : List Resume) : ∀ s : LoopState, ∀ r ∈ L,
    r.id ∈ (L.foldl processRecord s).processed ∨ validateResume r = false := by
  induction L with
  | nil => intro s r hr; cases hr
  | cons a L ih =>
      intro s r hr
      simp only [List.foldl_cons]
      rcases List.mem_cons.mp hr with rfl | hr
      · by_cases h : s.processed.contains r.id = true
        · left
          exact foldl_processed_mono L _ _
            (processRecord_processed_mono s r r.id (by simpa using h))
        · rcases hv : validateResume r with _ | _
          · right; rfl
          · left
            refine foldl_processed_mono L _ _ ?_
            rw [processRecord_save s r (by simpa using h) hv]
            exact List.mem_cons_self _ _
      · exact ih _ r hr

/-- Invariant: when the processed set starts out as exactly the IDs of
the buffer, it stays exactly the IDs of the buffer. -/
lemma foldl_processed_batch_ids (L : List Resume) : ∀ s : LoopState,
    (∀ x, x ∈ s.processed ↔ x ∈ s.batch.map Resume.id) →
    ∀ x, x ∈ (L.foldl processRecord s).processed
      ↔ x ∈ (L.foldl processRecord s).batch.map Resume.id := by
  induction L with
  | nil => intro s h; exact h
  | cons r L ih =>
      intro s h
      simp only [List.foldl_cons]
      refine ih _ ?_
      intro x
      by_cases hc : s.processed.contains r.id = true
      · rw [processRecord_dup s r hc]; exact h x
      · rcases hv : validateResume r with _ | _
        · rw [processRecord_invalid s r (by simpa using hc) hv]; exact h x
        · rw [processRecord_save s r (by simpa using hc) hv]
          simp only [List.mem_cons, List.map_append, List.map_cons,
            List.map_nil, List.mem_append, enrichResumeData_id]
          constructor
          · rintro (rfl | hx)
            · right; simp
            · left; exact (h x).mp hx
          · rintro (hx | hx)
            · right; exact (h x).mpr hx
            · left; simpa using hx

/-- When every record of the stream is already processed or invalid, the
fold only counts: nothing is saved, the processed set and the buffer do
not change, and every record is skipped. -/
lemma foldl_skipAll (L : List Resume) : ∀ s : LoopState,
    (∀ r ∈ L, r.id ∈ s.processed ∨ validateResume r = false) →
    (L.foldl processRecord s).processed = s.processed ∧
    (L.foldl processRecord s).batch = s.batch ∧
    (L.foldl processRecord s).result.savedCount = s.result.savedCount ∧
    (L.foldl processRecord s).result.skippedCount
      = s.result.skippedCount + L.length := by
  induction L with
  | nil => intro s h; exact ⟨rfl, rfl, rfl, rfl⟩
  | cons r L ih =>
      intro s h
      have hr := h r (List.mem_cons_self _ _)
      have hstep : processRecord s r =
          { s with result := { s.result with
              processedCount := s.result.processedCount + 1,
              skippedCount := s.result.skippedCount + 1 } } := by
        rcases hr with hmem | hv
        · exact processRecord_dup s r (by simpa using hmem)
        · by_cases hc : s.processed.contains r.id = true
          · exact processRecord_dup s r hc
          · exact processRecord_invalid s r (by simpa using hc) hv
      simp only [List.foldl_cons, hstep]
      have hrest := ih { s with result := { s.result with
          processedCount := s.result.processedCount + 1,
          skippedCount := s.result.skippedCount + 1 } }
        (by intro a ha; exact h a (List.mem_cons_of_mem _ ha))
      refine ⟨hrest.1, hrest.2.1, hrest.2.2.1, ?_⟩
      rw [hrest.2.2.2]
      dsimp only
      rw [List.length_cons]
      omega

/-! Characterization of the pagination loop: the records it actually
processes, the fetch errors it collects and the pages it requests. -/

/-- The records the pagination loop feeds to the per-record loop: pages
are consumed in order until a fetch error or an empty page. -/
def consumedRecords : List (Except String (List Resume)) → List Resume
  | [] => []
  | Except.error _ :: _ => []
  | Except.ok rs :: rest =>
      if rs.length == 0 then [] else rs ++ consumedRecords rest

/-- The wrapped fetch errors the pagination loop appends to the result
(at most one, since the loop stops at the first failure). -/
def consumedErrors : Nat → List (Except String (List Resume)) → List String
  | _, [] => []
  | page, Except.error e :: _ => [fetchErrorMsg page e]
  | page, Except.ok rs :: rest =>
      if rs.length == 0 then [] else consumedErrors (page + 1) rest

/-- The page numbers the pagination loop requests, in order. -/
def pagesFetched : Nat → List (Except String (List Resume)) → List Nat
  | page, [] => [page]
  | page, Except.error _ :: _ => [page]
  | page, Except.ok rs :: rest =>
      if rs.length == 0 then [page] else page :: pagesFetched (page + 1) rest

/-- One loop step never touches the totalFound field. -/
lemma processRecord_totalFound (s : LoopState) (r : Resume) :
    (processRecord s r).result.totalFound = s.result.totalFound := by
  by_cases h : s.processed.contains r.id = true
  · rw [processRecord_dup s r h]
  · rcases hv : validateResume r with _ | _
    · rw [processRecord_invalid s r (by simpa using h) hv]
    · rw [processRecord_save s r (by simpa using h) hv]

/-- Folding the loop body never touches the totalFound field. -/
lemma foldl_totalFound (L : List Resume) : ∀ s : LoopState,
    (L.foldl processRecord s).result.totalFound = s.result.totalFound := by
  induction L with
  | nil => intro s; rfl
  | cons r L ih =>
      intro s
      simp only [List.foldl_cons]
      rw [ih, processRecord_totalFound]

/-- The pagination loop is the per-record fold over the consumed records,
with the collected fetch errors appended and the requested pages
recorded. -/
lemma runPages_char (pages : List (Except String (List Resume))) :
    ∀ (page : Nat) (s : LoopState),
    runPages page pages s =
      ({ (consumedRecords pages).foldl processRecord s with
          result := { ((consumedRecords pages).foldl processRecord s).result with
            errors := s.result.errors ++ consumedErrors page pages } },
       pagesFetched page pages) := by
  induction pages with
  | nil =>
      intro page s
      simp [runPages, consumedRecords, consumedErrors, pagesFetched]
  | cons p rest ih =>
      intro page s
      rcases p with e | rs
      · simp [runPages, consumedRecords, consumedErrors, pagesFetched]
      · by_cases h : rs.length == 0
        · simp [runPages, consumedRecords, consumedErrors, pagesFetched, h]
        · simp only [runPages, consumedRecords, consumedErrors, pagesFetched, h,
            if_false, Bool.false_eq_true]
          rw [ih (page + 1) (rs.foldl processRecord s)]
          simp only [List.foldl_append, foldl_errors]

/-- Flush with an empty buffer: no persist call, no error, TotalFound set
to ProcessedCount. -/
lemma flushStep_empty (save : List Resume → Option String)
    (run : LoopState × List Nat) (h : run.1.batch = []) :
    flushStep save run =
      ⟨{ run.1.result with totalFound := run.1.result.processedCount }, none,
       run.2, [], run.1.batch⟩ := by
  simp [flushStep, h]

/-- Flush with a non-empty buffer and a successful persist: one persist
call with the whole buffer, no error, TotalFound set to ProcessedCount. -/
lemma flushStep_ok (save : List Resume → Option String)
    (run : LoopState × List Nat) (h : run.1.batch ≠ [])
    (hs : save run.1.batch = none) :
    flushStep save run =
      ⟨{ run.1.result with totalFound := run.1.result.processedCount }, none,
       run.2, [run.1.batch], run.1.batch⟩ := by
  have hl : run.1.batch.length > 0 := List.length_pos.mpr h
  simp [flushStep, hl, hs]

/-- Flush with a non-empty buffer and a failing persist: one persist call
with the whole buffer, the wrapped error returned, counters untouched. -/
lemma flushStep_fail (save : List Resume → Option String)
    (run : LoopState × List Nat) (e : String) (h : run.1.batch ≠ [])
    (hs : save run.1.batch = some e) :
    flushStep save run =
      ⟨run.1.result, some (saveErrorMsg e), run.2, [run.1.batch],
       run.1.batch⟩ := by
  have hl : run.1.batch.length > 0 := List.length_pos.mpr h
  simp [flushStep, hl, hs]

/-! Skill normalization: specification-level characterization. -/

/-- Specification-level skill normalization, written from the spec's
words: drop empty entries, keep the first occurrence of every remaining
skill in order and delete its later duplicates.  It is compared with the
implementation `normalizeSkills`. -/
def specNormalizeSkills : List String → List String
  | [] => []
  | s :: rest =>
      if s = "" then specNormalizeSkills rest
      else s :: (specNormalizeSkills rest).filter (fun t => t != s)

/-- The normalization loop with seen-set `seen` keeps exactly the
first-occurrence survivors that are not in `seen`. -/
lemma normalizeSkillsAux_eq (l : List String) : ∀ seen : List String,
    normalizeSkillsAux seen l
      = (specNormalizeSkills l).filter (fun t => !seen.contains t) := by
  induction l with
  | nil => intro seen; rfl
  | cons s rest ih =>
      intro seen
      by_cases hs : s = ""
      · subst hs
        simp only [normalizeSkillsAux, specNormalizeSkills]
        simp [ih]
      · by_cases hc : seen.contains s = true
        · have hm : s ∈ seen := by simpa using hc
          simp only [normalizeSkillsAux, specNormalizeSkills]
          rw [if_neg (by simp [hs, hm]), if_neg hs]
          rw [List.filter_cons_of_neg (by simp [hm]), List.filter_filter, ih]
          refine List.filter_congr ?_
          intro t ht'
          by_cases ht : t = s
          · subst ht
            simp [hm]
          · simp [ht]
        · have hm : s ∉ seen := by simpa using hc
          simp only [normalizeSkillsAux, specNormalizeSkills]
          rw [if_pos (by simp [hs, hm]), if_neg hs]
          rw [List.filter_cons_of_pos (by simp [hm]), List.filter_filter, ih]
          refine congrArg (s :: ·) ?_
          refine List.filter_congr ?_
          intro t ht'
          by_cases ht : t = s
          · subst ht
            have hct : seen.contains t = false := by simpa using hm
            simp [hct, List.contains_cons]
          · simp [ht, List.contains_cons, Bool.and_comm]

/-- The implementation equals the specification-level normalization. -/
lemma normalizeSkills_eq_spec (l : List String) :
    normalizeSkills l = specNormalizeSkills l := by
  rw [normalizeSkills, normalizeSkillsAux_eq]
  simp

/-- Specification-level normalization commutes with filtering. -/
lemma specNormalizeSkills_filter (p : String → Bool) :
    ∀ l : List String,
    specNormalizeSkills (l.filter p) = (specNormalizeSkills l).filter p := by
  intro l
  induction l with
  | nil => rfl
  | cons s rest ih =>
      by_cases hp : p s = true
      · rw [List.filter_cons_of_pos hp]
        by_cases hs : s = ""
        · subst hs
          simp only [specNormalizeSkills, if_pos rfl]
          exact ih
        · simp only [specNormalizeSkills, if_neg hs]
          rw [List.filter_cons_of_pos hp, ih, List.filter_filter,
            List.filter_filter]
          refine congrArg (s :: ·) ?_
          refine List.filter_congr ?_
          intro t ht'
          exact Bool.and_comm _ _
      · rw [List.filter_cons_of_neg hp]
        by_cases hs : s = ""
        · subst hs
          simp only [specNormalizeSkills, if_pos rfl]
          exact ih
        · simp only [specNormalizeSkills, if_neg hs]
          rw [List.filter_cons_of_neg hp, List.filter_filter, ih]
          refine List.filter_congr ?_
          intro t ht'
          by_cases ht : t = s
          · subst ht
            simp [hp]
          · simp [ht]

/-- Specification-level normalization is idempotent. -/
lemma specNormalizeSkills_idem :
    ∀ l : List String,
    specNormalizeSkills (specNormalizeSkills l) = specNormalizeSkills l := by
  intro l
  induction l with
  | nil => rfl
  | cons s rest ih =>
      by_cases hs : s = ""
      · simp only [specNormalizeSkills, if_pos hs]
        exact ih
      · simp only [specNormalizeSkills, if_neg hs]
        rw [specNormalizeSkills_filter, ih, List.filter_filter]
        refine congrArg (s :: ·) ?_
        refine List.filter_congr ?_
        intro t ht'
        exact Bool.and_self _

/-- Propositional characterization of validateResume: the record passes
exactly when it has a non-empty identifier, a non-empty name or title,
and at least one skill or experience entry. -/
lemma validateResume_iff (r : Resume) :
    validateResume r = true ↔
      (r.id ≠ "" ∧ (r.name ≠ "" ∨ r.title ≠ "") ∧
       (r.skills ≠ [] ∨ r.experience ≠ [])) := by
  simp [validateResume, Resume.IsValid, List.length_eq_zero]
  tauto

/-- Reading back the tabular sink written for a batch yields exactly the
batch's identifiers: the header row is skipped and each data row starts
with the record's ID. -/
lemma csv_roundtrip (resumes : List Resume) :
    CSVStorage.GetSavedResumeIDs (some (CSVStorage.SaveResumes resumes))
      = Except.ok (resumes.map Resume.id) := by
  simp only [CSVStorage.SaveResumes, CSVStorage.GetSavedResumeIDs]
  refine congrArg Except.ok ?_
  induction resumes with
  | nil => rfl
  | cons r rest ih =>
      simp only [List.map_cons, List.filterMap_cons]
      have hh : (csvRecord r).head? = some r.id := rfl
      rw [hh, ih]

/-- The flush step never changes the counters, the error list, the
fetched pages or the final buffer; it only decides the returned error,
the persist calls and TotalFound. -/
lemma flushStep_project (save : List Resume → Option String)
    (run : LoopState × List Nat) :
    (flushStep save run).result.processedCount = run.1.result.processedCount ∧
    (flushStep save run).result.savedCount = run.1.result.savedCount ∧
    (flushStep save run).result.skippedCount = run.1.result.skippedCount ∧
    (flushStep save run).result.errors = run.1.result.errors ∧
    (flushStep save run).finalBatch = run.1.batch ∧
    (flushStep save run).fetchPages = run.2 := by
  unfold flushStep
  by_cases hb : run.1.batch.length > 0
  · rw [if_pos hb]
    cases hsv : save run.1.batch <;> simp
  · rw [if_neg hb]
    simp

/-- Projection of a full run onto the per-record fold over the consumed
records: counters, error list, final buffer and fetched pages. -/
lemma parse_project (seedRes : Except String (List String))
    (pages : List (Except String (List Resume)))
    (save : List Resume → Option String) :
    (parseResumesByCriteria seedRes pages save).result.processedCount
      = ((consumedRecords pages).foldl processRecord
          (initState seedRes)).result.processedCount ∧
    (parseResumesByCriteria seedRes pages save).result.savedCount
      = ((consumedRecords pages).foldl processRecord
          (initState seedRes)).result.savedCount ∧
    (parseResumesByCriteria seedRes pages save).result.skippedCount
      = ((consumedRecords pages).foldl processRecord
          (initState seedRes)).result.skippedCount ∧
    (parseResumesByCriteria seedRes pages save).result.errors
      = consumedErrors 0 pages ∧
    (parseResumesByCriteria seedRes pages save).finalBatch
      = ((consumedRecords pages).foldl processRecord (initState seedRes)).batch ∧
    (parseResumesByCriteria seedRes pages save).fetchPages
      = pagesFetched 0 pages := by
  unfold parseResumesByCriteria
  rw [runPages_char]
  have hp := flushStep_project save
    ({ (consumedRecords pages).foldl processRecord (initState seedRes) with
        result := { ((consumedRecords pages).foldl processRecord
            (initState seedRes)).result with
          errors := (initState seedRes).result.errors
            ++ consumedErrors 0 pages } },
     pagesFetched 0 pages)
  have hinit : (initState seedRes).result.errors = [] := rfl
  rw [hinit] at hp
  simpa using hp

/-! Verified claims. -/

/-- Concrete record with identifier and name but neither skills nor
experience (the rejected side of the validity boundary). -/
def resumeNoSkillNoExp : Resume := { baseResume with id := "1", name := "Ann" }

/-- The same record with one skill added (the accepted side of the
validity boundary). -/
def resumeOneSkill : Resume := { resumeNoSkillNoExp with skills := ["Go"] }

/-- C4: a not-yet-processed record is kept (its SavedCount incremented)
exactly when it satisfies the validity invariant: non-empty identifier
AND (non-empty name OR non-empty title) AND (at least one skill OR at
least one experience entry).  A record with an empty identifier never
validates regardless of other fields; the concrete boundary records
behave as claimed. -/
theorem C4_validity_gate :
    (∀ (s : LoopState) (r : Resume), s.processed.contains r.id = false →
      ((processRecord s r).result.savedCount = s.result.savedCount + 1 ↔
        (r.id ≠ "" ∧ (r.name ≠ "" ∨ r.title ≠ "") ∧
         (r.skills ≠ [] ∨ r.experience ≠ [])))) ∧
    (∀ r : Resume, r.id = "" → validateResume r = false) ∧
    validateResume resumeNoSkillNoExp = false ∧
    validateResume resumeOneSkill = true := by
  refine ⟨?_, ?_, by decide, by decide⟩
  · intro s r h
    rcases hv : validateResume r with _ | _
    · rw [processRecord_invalid s r h hv]
      constructor
      · intro habs
        dsimp only at habs
        omega
      · intro hprop
        have := (validateResume_iff r).mpr hprop
        rw [hv] at this
        cases this
    · rw [processRecord_save s r h hv]
      constructor
      · intro _
        exact (validateResume_iff r).mp hv
      · intro _
        rfl
  · intro r h
    rcases hv : validateResume r with _ | _
    · rfl
    · exact absurd h ((validateResume_iff r).mp hv).1

/-- Witness for C4: the boundary record with one skill, arriving at the
empty state, is saved; a record with empty identifier fails
validation. -/
theorem C4_validity_gate_witness :
    ((⟨[], [], ⟨0, 0, 0, 0, []⟩⟩ : LoopState).processed.contains
        resumeOneSkill.id = false) ∧
    ((processRecord ⟨[], [], ⟨0, 0, 0, 0, []⟩⟩ resumeOneSkill).result.savedCount
        = (⟨[], [], ⟨0, 0, 0, 0, []⟩⟩ : LoopState).result.savedCount + 1 ↔
      (resumeOneSkill.id ≠ "" ∧
       (resumeOneSkill.name ≠ "" ∨ resumeOneSkill.title ≠ "") ∧
       (resumeOneSkill.skills ≠ [] ∨ resumeOneSkill.experience ≠ []))) ∧
    baseResume.id = "" ∧ validateResume baseResume = false :=
  ⟨by decide, C4_validity_gate.1 _ resumeOneSkill (by decide), rfl,
   C4_validity_gate.2.1 baseResume rfl⟩

/-- C6: normalization equals the specification-level first-occurrence
deduplication that drops empty entries; the concrete example holds; and
normalization is idempotent. -/
theorem C6_skill_normalization :
    (∀ l : List String, normalizeSkills l = specNormalizeSkills l) ∧
    normalizeSkills ["Go", "", "Go", "Docker"] = ["Go", "Docker"] ∧
    (∀ l : List String,
      normalizeSkills (normalizeSkills l) = normalizeSkills l) := by
  refine ⟨normalizeSkills_eq_spec, by decide, ?_⟩
  intro l
  rw [normalizeSkills_eq_spec, normalizeSkills_eq_spec l,
    specNormalizeSkills_idem]

/-- C7: pagination starts at page 0, increments by 1 after each
non-empty page, and stops at the first empty fetch: for pages of sizes
20, 20 and 0 exactly the pages 0, 1 and 2 are fetched (three calls) and
all 40 records are counted in ProcessedCount. -/
theorem C7_pagination_termination (p1 p2 : List Resume)
    (h1 : p1.length = 20) (h2 : p2.length = 20)
    (seedRes : Except String (List String))
    (save : List Resume → Option String) :
    (parseResumesByCriteria seedRes
        [Except.ok p1, Except.ok p2, Except.ok []] save).fetchPages
      = [0, 1, 2] ∧
    (parseResumesByCriteria seedRes
        [Except.ok p1, Except.ok p2, Except.ok []] save).result.processedCount
      = 40 := by
  have hproj := parse_project seedRes
    [Except.ok p1, Except.ok p2, Except.ok []] save
  have hb1 : (p1.length == 0) = false := by rw [h1]; rfl
  have hb2 : (p2.length == 0) = false := by rw [h2]; rfl
  constructor
  · rw [hproj.2.2.2.2.2]
    simp [pagesFetched, hb1, hb2]
  · rw [hproj.1, foldl_processedCount]
    have hc : consumedRecords [Except.ok p1, Except.ok p2, Except.ok []]
        = p1 ++ (p2 ++ []) := by
      simp [consumedRecords, hb1, hb2]
    rw [hc]
    have hz : (initState seedRes).result.processedCount = 0 := rfl
    rw [hz]
    simp [h1, h2]

/-- Witness for C7 at two concrete pages of 20 records each. -/
theorem C7_pagination_termination_witness :
    (List.replicate 20 baseResume).length = 20 ∧
    ((parseResumesByCriteria (Except.ok [])
        [Except.ok (List.replicate 20 baseResume),
         Except.ok (List.replicate 20 baseResume), Except.ok []]
        (fun _ => none)).fetchPages = [0, 1, 2] ∧
     (parseResumesByCriteria (Except.ok [])
        [Except.ok (List.replicate 20 baseResume),
         Except.ok (List.replicate 20 baseResume), Except.ok []]
        (fun _ => none)).result.processedCount = 40) :=
  ⟨by simp, C7_pagination_termination _ _ (by simp) (by simp) _ _⟩

/-- Over one run, the final buffer length equals the saved count. -/
lemma runPages_batch_saved (seedRes : Except String (List String))
    (pages : List (Except String (List Resume))) :
    (runPages 0 pages (initState seedRes)).1.batch.length
      = (runPages 0 pages (initState seedRes)).1.result.savedCount := by
  rw [runPages_char]
  have h := foldl_batch_saved (consumedRecords pages) (initState seedRes)
  have hz : (initState seedRes).result.savedCount = 0 := rfl
  have hb : (initState seedRes).batch.length = 0 := rfl
  dsimp only
  omega

/-- C2: if the final flush fails, the run returns the wrapped persist
error while its result still reports the saved count of all records
accumulated before the flush (the full buffer length); the buffer is
persisted exactly once and in full, and persist is not called at all on
an empty buffer. -/
theorem C2_fatal_flush_error (seedRes : Except String (List String))
    (pages : List (Except String (List Resume)))
    (save : List Resume → Option String) :
    ((parseResumesByCriteria seedRes pages save).finalBatch = [] →
      (parseResumesByCriteria seedRes pages save).persistCalls = []) ∧
    ((parseResumesByCriteria seedRes pages save).finalBatch ≠ [] →
      (parseResumesByCriteria seedRes pages save).persistCalls
        = [(parseResumesByCriteria seedRes pages save).finalBatch]) ∧
    (∀ e, (parseResumesByCriteria seedRes pages save).finalBatch ≠ [] →
      save (parseResumesByCriteria seedRes pages save).finalBatch = some e →
      (parseResumesByCriteria seedRes pages save).runError
          = some (saveErrorMsg e) ∧
      (parseResumesByCriteria seedRes pages save).result.savedCount
          = (parseResumesByCriteria seedRes pages save).finalBatch.length) := by
  have hfb : (parseResumesByCriteria seedRes pages save).finalBatch
      = (runPages 0 pages (initState seedRes)).1.batch :=
    (flushStep_project save (runPages 0 pages (initState seedRes))).2.2.2.2.1
  refine ⟨?_, ?_, ?_⟩
  · intro hb
    rw [hfb] at hb
    show (flushStep save (runPages 0 pages (initState seedRes))).persistCalls = []
    rw [flushStep_empty save _ hb]
  · intro hb
    rw [hfb] at hb
    rw [hfb]
    show (flushStep save (runPages 0 pages (initState seedRes))).persistCalls
      = [(runPages 0 pages (initState seedRes)).1.batch]
    cases hsv : save (runPages 0 pages (initState seedRes)).1.batch with
    | none => rw [flushStep_ok save _ hb hsv]
    | some e => rw [flushStep_fail save _ e hb hsv]
  · intro e hb hsv
    rw [hfb] at hb hsv
    rw [hfb]
    have hflush := flushStep_fail save (runPages 0 pages (initState seedRes))
      e hb hsv
    constructor
    · show (flushStep save (runPages 0 pages (initState seedRes))).runError
        = some (saveErrorMsg e)
      rw [hflush]
    · show (flushStep save (runPages 0 pages (initState seedRes))).result.savedCount
        = (runPages 0 pages (initState seedRes)).1.batch.length
      rw [hflush, runPages_batch_saved]

/-- Witness for C2: one valid record, a persist that fails with a
concrete error. -/
theorem C2_fatal_flush_error_witness :
    ((parseResumesByCriteria (Except.ok []) [Except.ok [resumeOneSkill]]
        (fun _ => some "disk full")).finalBatch ≠ [] ∧
     (parseResumesByCriteria (Except.ok []) [Except.ok [resumeOneSkill]]
        (fun _ => some "disk full")).persistCalls
       = [(parseResumesByCriteria (Except.ok []) [Except.ok [resumeOneSkill]]
            (fun _ => some "disk full")).finalBatch]) ∧
    ((parseResumesByCriteria (Except.ok []) [Except.ok [resumeOneSkill]]
        (fun _ => some "disk full")).runError
        = some (saveErrorMsg "disk full") ∧
     (parseResumesByCriteria (Except.ok []) [Except.ok [resumeOneSkill]]
        (fun _ => some "disk full")).result.savedCount
        = (parseResumesByCriteria (Except.ok []) [Except.ok [resumeOneSkill]]
            (fun _ => some "disk full")).finalBatch.length) :=
  ⟨⟨by decide,
    (C2_fatal_flush_error (Except.ok []) [Except.ok [resumeOneSkill]]
      (fun _ => some "disk full")).2.1 (by decide)⟩,
   (C2_fatal_flush_error (Except.ok []) [Except.ok [resumeOneSkill]]
      (fun _ => some "disk full")).2.2 "disk full" (by decide) rfl⟩

/-- A non-empty page never matches the empty-page test. -/
lemma length_beq_zero_false {α : Type} (rs : List α) (h : rs ≠ []) :
    (rs.length == 0) = false := by
  cases rs with
  | nil => exact absurd rfl h
  | cons a as => rfl

/-- Along non-empty pages followed by a fetch failure, exactly the one
wrapped fetch error is collected, at the page index where the failure
happened. -/
lemma consumedErrors_good (e : String)
    (rest : List (Except String (List Resume))) :
    ∀ (L : List (List Resume)) (page : Nat), (∀ rs ∈ L, rs ≠ []) →
    consumedErrors page (L.map Except.ok ++ Except.error e :: rest)
      = [fetchErrorMsg (page + L.length) e] := by
  intro L
  induction L with
  | nil => intro page h; simp [consumedErrors]
  | cons rs L ih =>
      intro page h
      have hb := length_beq_zero_false rs (h rs (List.mem_cons_self _ _))
      simp only [List.map_cons, List.cons_append, consumedErrors, hb,
        Bool.false_eq_true, if_false, List.append_eq]
      rw [ih (page + 1) (fun a ha => h a (List.mem_cons_of_mem _ ha))]
      have harith : page + 1 + L.length = page + (rs :: L).length := by
        simp [List.length_cons]; omega
      rw [harith]

/-- Along non-empty pages followed by a fetch failure, exactly the pages
up to and including the failing one are requested. -/
lemma pagesFetched_good (e : String)
    (rest : List (Except String (List Resume))) :
    ∀ (L : List (List Resume)) (page : Nat), (∀ rs ∈ L, rs ≠ []) →
    pagesFetched page (L.map Except.ok ++ Except.error e :: rest)
      = List.range' page (L.length + 1) := by
  intro L
  induction L with
  | nil => intro page h; simp [pagesFetched, List.range']
  | cons rs L ih =>
      intro page h
      have hb := length_beq_zero_false rs (h rs (List.mem_cons_self _ _))
      simp only [List.map_cons, List.cons_append, pagesFetched, hb,
        Bool.false_eq_true, if_false, List.append_eq]
      rw [ih (page + 1) (fun a ha => h a (List.mem_cons_of_mem _ ha))]
      simp [List.range', List.length_cons]

/-- C3: when a fetch fails after some non-empty pages, the wrapped error
is appended to the result's error list, no further page is requested,
the records accumulated so far are still flushed (once, in full, when
non-empty), and the run-level error is nil whenever the persist call
itself succeeds. -/
theorem C3_fetch_failure_not_fatal (goodPages : List (List Resume))
    (e : String) (rest : List (Except String (List Resume)))
    (seedRes : Except String (List String))
    (save : List Resume → Option String)
    (hgood : ∀ rs ∈ goodPages, rs ≠ []) :
    (parseResumesByCriteria seedRes
        (goodPages.map Except.ok ++ Except.error e :: rest) save).result.errors
      = [fetchErrorMsg goodPages.length e] ∧
    (parseResumesByCriteria seedRes
        (goodPages.map Except.ok ++ Except.error e :: rest) save).fetchPages
      = List.range (goodPages.length + 1) ∧
    ((parseResumesByCriteria seedRes
        (goodPages.map Except.ok ++ Except.error e :: rest) save).finalBatch
        ≠ [] →
      (parseResumesByCriteria seedRes
          (goodPages.map Except.ok ++ Except.error e :: rest) save).persistCalls
        = [(parseResumesByCriteria seedRes
            (goodPages.map Except.ok ++ Except.error e :: rest)
            save).finalBatch]) ∧
    (save (parseResumesByCriteria seedRes
        (goodPages.map Except.ok ++ Except.error e :: rest) save).finalBatch
        = none →
      (parseResumesByCriteria seedRes
          (goodPages.map Except.ok ++ Except.error e :: rest) save).runError
        = none) := by
  have hproj := parse_project seedRes
    (goodPages.map Except.ok ++ Except.error e :: rest) save
  refine ⟨?_, ?_, ?_, ?_⟩
  · rw [hproj.2.2.2.1, consumedErrors_good e rest goodPages 0 hgood]
    rw [Nat.zero_add]
  · rw [hproj.2.2.2.2.2, pagesFetched_good e rest goodPages 0 hgood,
      List.range_eq_range']
  · exact (C2_fatal_flush_error seedRes
      (goodPages.map Except.ok ++ Except.error e :: rest) save).2.1
  · intro hsv
    have hfb : (parseResumesByCriteria seedRes
        (goodPages.map Except.ok ++ Except.error e :: rest) save).finalBatch
        = (runPages 0 (goodPages.map Except.ok ++ Except.error e :: rest)
            (initState seedRes)).1.batch :=
      (flushStep_project save _).2.2.2.2.1
    rw [hfb] at hsv
    by_cases hb : (runPages 0 (goodPages.map Except.ok ++ Except.error e :: rest)
        (initState seedRes)).1.batch = []
    · show (flushStep save (runPages 0
          (goodPages.map Except.ok ++ Except.error e :: rest)
          (initState seedRes))).runError = none
      rw [flushStep_empty save _ hb]
    · show (flushStep save (runPages 0
          (goodPages.map Except.ok ++ Except.error e :: rest)
          (initState seedRes))).runError = none
      rw [flushStep_ok save _ hb hsv]

/-- Witness for C3: one good page, then a failing fetch, with a
succeeding persist. -/
theorem C3_fetch_failure_not_fatal_witness :
    (∀ rs ∈ [[resumeOneSkill]], rs ≠ ([] : List Resume)) ∧
    (parseResumesByCriteria (Except.ok [])
        ([[resumeOneSkill]].map Except.ok ++ Except.error "boom" :: [])
        (fun _ => none)).result.errors = [fetchErrorMsg 1 "boom"] ∧
    (parseResumesByCriteria (Except.ok [])
        ([[resumeOneSkill]].map Except.ok ++ Except.error "boom" :: [])
        (fun _ => none)).fetchPages = List.range 2 ∧
    (parseResumesByCriteria (Except.ok [])
        ([[resumeOneSkill]].map Except.ok ++ Except.error "boom" :: [])
        (fun _ => none)).persistCalls
      = [(parseResumesByCriteria (Except.ok [])
          ([[resumeOneSkill]].map Except.ok ++ Except.error "boom" :: [])
          (fun _ => none)).finalBatch] ∧
    (parseResumesByCriteria (Except.ok [])
        ([[resumeOneSkill]].map Except.ok ++ Except.error "boom" :: [])
        (fun _ => none)).runError = none :=
  ⟨by decide,
   (C3_fetch_failure_not_fatal [[resumeOneSkill]] "boom" [] (Except.ok [])
      (fun _ => none) (by decide)).1,
   (C3_fetch_failure_not_fatal [[resumeOneSkill]] "boom" [] (Except.ok [])
      (fun _ => none) (by decide)).2.1,
   (C3_fetch_failure_not_fatal [[resumeOneSkill]] "boom" [] (Except.ok [])
      (fun _ => none) (by decide)).2.2.1 (by decide),
   (C3_fetch_failure_not_fatal [[resumeOneSkill]] "boom" [] (Except.ok [])
      (fun _ => none) (by decide)).2.2.2 rfl⟩

/-- C10 (amended): in every run the returned counts satisfy
ProcessedCount = SavedCount + SkippedCount, and whenever the run returns
no error (the flush did not fail) TotalFound equals ProcessedCount.
After a failed flush the early return leaves TotalFound at 0. -/
theorem C10_count_invariants (seedRes : Except String (List String))
    (pages : List (Except String (List Resume)))
    (save : List Resume → Option String) :
    (parseResumesByCriteria seedRes pages save).result.processedCount
      = (parseResumesByCriteria seedRes pages save).result.savedCount
        + (parseResumesByCriteria seedRes pages save).result.skippedCount ∧
    ((parseResumesByCriteria seedRes pages save).runError = none →
      (parseResumesByCriteria seedRes pages save).result.totalFound
        = (parseResumesByCriteria seedRes pages save).result.processedCount) := by
  have hproj := parse_project seedRes pages save
  constructor
  · rw [hproj.1, hproj.2.1, hproj.2.2.1]
    have h1 := foldl_processedCount (consumedRecords pages) (initState seedRes)
    have h2 := foldl_counts (consumedRecords pages) (initState seedRes)
    have hz1 : (initState seedRes).result.processedCount = 0 := rfl
    have hz2 : (initState seedRes).result.savedCount = 0 := rfl
    have hz3 : (initState seedRes).result.skippedCount = 0 := rfl
    omega
  · intro herr
    by_cases hb : (runPages 0 pages (initState seedRes)).1.batch = []
    · have hflush := flushStep_empty save (runPages 0 pages (initState seedRes)) hb
      show (flushStep save (runPages 0 pages (initState seedRes))).result.totalFound
        = (flushStep save (runPages 0 pages (initState seedRes))).result.processedCount
      rw [hflush]
    · cases hsv : save (runPages 0 pages (initState seedRes)).1.batch with
      | none =>
          have hflush := flushStep_ok save (runPages 0 pages (initState seedRes))
            hb hsv
          show (flushStep save
              (runPages 0 pages (initState seedRes))).result.totalFound
            = (flushStep save
                (runPages 0 pages (initState seedRes))).result.processedCount
          rw [hflush]
      | some e =>
          have hflush := flushStep_fail save (runPages 0 pages (initState seedRes))
            e hb hsv
          have : (parseResumesByCriteria seedRes pages save).runError
              = some (saveErrorMsg e) := by
            show (flushStep save (runPages 0 pages (initState seedRes))).runError
              = some (saveErrorMsg e)
            rw [hflush]
          rw [herr] at this
          cases this

/-- Witness for C10 at a concrete run whose flush succeeds. -/
theorem C10_count_invariants_witness :
    (parseResumesByCriteria (Except.ok []) [Except.ok [resumeOneSkill]]
        (fun _ => none)).result.processedCount
      = (parseResumesByCriteria (Except.ok []) [Except.ok [resumeOneSkill]]
          (fun _ => none)).result.savedCount
        + (parseResumesByCriteria (Except.ok []) [Except.ok [resumeOneSkill]]
            (fun _ => none)).result.skippedCount ∧
    (parseResumesByCriteria (Except.ok []) [Except.ok [resumeOneSkill]]
        (fun _ => none)).result.totalFound
      = (parseResumesByCriteria (Except.ok []) [Except.ok [resumeOneSkill]]
          (fun _ => none)).result.processedCount :=
  ⟨(C10_count_invariants (Except.ok []) [Except.ok [resumeOneSkill]]
      (fun _ => none)).1,
   (C10_count_invariants (Except.ok []) [Except.ok [resumeOneSkill]]
      (fun _ => none)).2 (by decide)⟩

/-- C10 counterexample: with one valid record and a failing persist, the
returned ParseResult has ProcessedCount 1 but TotalFound 0, so TotalFound
does not equal ProcessedCount on the failed-flush path. -/
theorem C10_totalFound_counterexample :
    (parseResumesByCriteria (Except.ok []) [Except.ok [resumeOneSkill]]
        (fun _ => some "disk full")).result.processedCount = 1 ∧
    (parseResumesByCriteria (Except.ok []) [Except.ok [resumeOneSkill]]
        (fun _ => some "disk full")).result.totalFound = 0 ∧
    (parseResumesByCriteria (Except.ok []) [Except.ok [resumeOneSkill]]
        (fun _ => some "disk full")).result.totalFound
      ≠ (parseResumesByCriteria (Except.ok []) [Except.ok [resumeOneSkill]]
          (fun _ => some "disk full")).result.processedCount := by
  refine ⟨by decide, by decide, by decide⟩

/-- Invariant: the buffer's identifiers stay duplicate-free and inside
the processed set. -/
lemma foldl_batch_nodup (L : List Resume) : ∀ s : LoopState,
    (s.batch.map Resume.id).Nodup →
    (∀ x ∈ s.batch.map Resume.id, x ∈ s.processed) →
    ((L.foldl processRecord s).batch.map Resume.id).Nodup ∧
    (∀ x ∈ (L.foldl processRecord s).batch.map Resume.id,
      x ∈ (L.foldl processRecord s).processed) := by
  induction L with
  | nil => intro s h1 h2; exact ⟨h1, h2⟩
  | cons r L ih =>
      intro s h1 h2
      simp only [List.foldl_cons]
      by_cases hc : s.processed.contains r.id = true
      · rw [processRecord_dup s r hc]
        exact ih _ h1 h2
      · rcases hv : validateResume r with _ | _
        · rw [processRecord_invalid s r (by simpa using hc) hv]
          exact ih _ h1 h2
        · rw [processRecord_save s r (by simpa using hc) hv]
          have hnm : r.id ∉ s.processed := by simpa using hc
          refine ih _ ?_ ?_
          · simp only [List.map_append, List.map_cons, List.map_nil,
              enrichResumeData_id]
            rw [List.nodup_append]
            refine ⟨h1, List.nodup_singleton _, ?_⟩
            intro x hx hx'
            have hxid : x = r.id := by simpa using hx'
            subst hxid
            exact hnm (h2 _ hx)
          · intro x hx
            simp only [List.map_append, List.map_cons, List.map_nil,
              enrichResumeData_id, List.mem_append] at hx
            rcases hx with hx | hx
            · exact List.mem_cons_of_mem _ (h2 x hx)
            · have hxid : x = r.id := by simpa using hx
              subst hxid
              exact List.mem_cons_self _ _

/-- First record of the within-run duplicate-identifier counterexample:
identifier x, a name, but neither skills nor experience, so it fails
validation and is skipped without being marked processed. -/
def resumeDupInvalid : Resume := { baseResume with id := "x", name := "Ann" }

/-- Second record with the same identifier x, this time valid. -/
def resumeDupValid : Resume :=
  { baseResume with id := "x", name := "Ann", skills := ["Go"] }

/-- C5 counterexample: the source returns identifier x twice on one page,
first in an invalid record, then in a valid one.  The later occurrence is
saved (SavedCount 1 and the flushed batch holds the second record), so it
is not true that every later occurrence of a repeated identifier is
counted in SkippedCount. -/
theorem C5_later_occurrence_saved_counterexample :
    (parseResumesByCriteria (Except.ok [])
        [Except.ok [resumeDupInvalid, resumeDupValid]]
        (fun _ => none)).result.savedCount = 1 ∧
    (parseResumesByCriteria (Except.ok [])
        [Except.ok [resumeDupInvalid, resumeDupValid]]
        (fun _ => none)).result.skippedCount = 1 ∧
    (parseResumesByCriteria (Except.ok [])
        [Except.ok [resumeDupInvalid, resumeDupValid]]
        (fun _ => none)).finalBatch = [resumeDupValid] := by
  refine ⟨by decide, by decide, by decide⟩

/-- C5 (amended): once an identifier is in the processed set — in
particular as soon as one of its occurrences has been saved — every later
record with that identifier is counted in SkippedCount, not SavedCount,
and does not enter the buffer; consequently no identifier appears more
than once in the flushed batch of any run.  (A later occurrence can be
saved only when every earlier occurrence was skipped as invalid, as the
counterexample shows.) -/
theorem C5_single_run_dedup (seedRes : Except String (List String))
    (pages : List (Except String (List Resume)))
    (save : List Resume → Option String) :
    (((parseResumesByCriteria seedRes pages save).finalBatch.map
        Resume.id).Nodup) ∧
    (∀ (s : LoopState) (r : Resume), r.id ∈ s.processed →
      (processRecord s r).result.savedCount = s.result.savedCount ∧
      (processRecord s r).result.skippedCount = s.result.skippedCount + 1 ∧
      (processRecord s r).batch = s.batch) ∧
    (∀ (L : List Resume) (s : LoopState) (x : String), x ∈ s.processed →
      x ∈ (L.foldl processRecord s).processed) := by
  refine ⟨?_, ?_, ?_⟩
  · have hproj := parse_project seedRes pages save
    rw [hproj.2.2.2.2.1]
    have hinv := foldl_batch_nodup (consumedRecords pages) (initState seedRes)
      (by simp [initState]) (by simp [initState])
    exact hinv.1
  · intro s r hmem
    rw [processRecord_dup s r (by simpa using hmem)]
    exact ⟨rfl, rfl, rfl⟩
  · intro L s x hx
    exact foldl_processed_mono L s x hx

/-- Witness for C5: a duplicate of a saved identifier arriving later is
skipped, at a concrete state. -/
theorem C5_single_run_dedup_witness :
    resumeDupValid.id ∈ (⟨["x"], [resumeDupValid], ⟨0, 1, 1, 0, []⟩⟩ :
        LoopState).processed ∧
    ((processRecord ⟨["x"], [resumeDupValid], ⟨0, 1, 1, 0, []⟩⟩
        resumeDupValid).result.savedCount = 1 ∧
     (processRecord ⟨["x"], [resumeDupValid], ⟨0, 1, 1, 0, []⟩⟩
        resumeDupValid).result.skippedCount = 0 + 1 ∧
     (processRecord ⟨["x"], [resumeDupValid], ⟨0, 1, 1, 0, []⟩⟩
        resumeDupValid).batch = [resumeDupValid]) :=
  ⟨by decide,
   (C5_single_run_dedup (Except.ok []) [] (fun _ => none)).2.1
     ⟨["x"], [resumeDupValid], ⟨0, 1, 1, 0, []⟩⟩ resumeDupValid (by decide)⟩

/-- C8: persisting a batch that contains a record's identifier exactly
once and reading the same tabular sink back yields that identifier
exactly once; GetSavedResumeIDs skips the header row and returns column
0 of every remaining row, and a missing sink file yields the empty list
rather than an error. -/
theorem C8_tabular_roundtrip (resumes : List Resume) (r : Resume)
    (hmem : r ∈ resumes)
    (hcount : (resumes.map Resume.id).count r.id = 1) :
    (∃ ids, CSVStorage.GetSavedResumeIDs
        (some (CSVStorage.SaveResumes resumes)) = Except.ok ids ∧
      ids.count r.id = 1) ∧
    (∀ (header : List String) (rows : List (List String)),
      CSVStorage.GetSavedResumeIDs (some (header :: rows))
        = Except.ok (rows.filterMap List.head?)) ∧
    CSVStorage.GetSavedResumeIDs none = Except.ok [] :=
  ⟨⟨resumes.map Resume.id, csv_roundtrip resumes, hcount⟩,
   fun _ _ => rfl, rfl⟩

/-- Witness for C8 with a one-record batch. -/
theorem C8_tabular_roundtrip_witness :
    resumeOneSkill ∈ [resumeOneSkill] ∧
    (([resumeOneSkill].map Resume.id).count resumeOneSkill.id = 1) ∧
    (∃ ids, CSVStorage.GetSavedResumeIDs
        (some (CSVStorage.SaveResumes [resumeOneSkill])) = Except.ok ids ∧
      ids.count resumeOneSkill.id = 1) :=
  ⟨by decide, by decide,
   (C8_tabular_roundtrip [resumeOneSkill] resumeOneSkill (by decide)
      (by decide)).1⟩

set_option maxRecDepth 100000

set_option maxHeartbeats 1000000

/-- C9 (amended): the relational-script output of every batch begins with
the fixed schema preamble, and that preamble holds exactly 3 CREATE TABLE
statements (the record table and the experience and education child
tables) and exactly 4 CREATE INDEX statements. -/
theorem C9_schema_preamble :
    countOccur sqlSchema "CREATE TABLE IF NOT EXISTS" = 3 ∧
    countOccur sqlSchema "CREATE INDEX IF NOT EXISTS" = 4 ∧
    (∀ resumes : List Resume, ∃ tail,
      SQLStorage.SaveResumes resumes = sqlSchema ++ tail) := by
  refine ⟨by decide, by decide, fun resumes => ⟨_, rfl⟩⟩

/-- C9 counterexample: the schema preamble contains four CREATE INDEX
statements, not the two the claim states. -/
theorem C9_index_count_counterexample :
    countOccur sqlSchema "CREATE INDEX IF NOT EXISTS" ≠ 2 := by decide

/-- Every run either persists nothing (empty buffer) or persists its
non-empty buffer exactly once. -/
lemma parse_persistCalls_cases (seedRes : Except String (List String))
    (pages : List (Except String (List Resume)))
    (save : List Resume → Option String) :
    ((parseResumesByCriteria seedRes pages save).persistCalls = [] ∧
     (parseResumesByCriteria seedRes pages save).finalBatch = []) ∨
    ((parseResumesByCriteria seedRes pages save).persistCalls
        = [(parseResumesByCriteria seedRes pages save).finalBatch] ∧
     (parseResumesByCriteria seedRes pages save).finalBatch ≠ []) := by
  have hfb : (parseResumesByCriteria seedRes pages save).finalBatch
      = (runPages 0 pages (initState seedRes)).1.batch :=
    (flushStep_project save (runPages 0 pages (initState seedRes))).2.2.2.2.1
  by_cases hb : (runPages 0 pages (initState seedRes)).1.batch = []
  · left
    refine ⟨?_, by rw [hfb]; exact hb⟩
    show (flushStep save (runPages 0 pages (initState seedRes))).persistCalls = []
    rw [flushStep_empty save _ hb]
  · right
    refine ⟨?_, by rw [hfb]; exact hb⟩
    rw [hfb]
    show (flushStep save (runPages 0 pages (initState seedRes))).persistCalls
      = [(runPages 0 pages (initState seedRes)).1.batch]
    cases hsv : save (runPages 0 pages (initState seedRes)).1.batch with
    | none => rw [flushStep_ok save _ hb hsv]
    | some e => rw [flushStep_fail save _ e hb hsv]

/-- First run of the idempotent re-run scenario: a fresh (missing) sink,
so the dedup seed is empty; the persist succeeds. -/
def firstRun (pages : List (Except String (List Resume))) : RunOutput :=
  parseResumesByCriteria (FileStorage.GetSavedResumeIDs none) pages
    (fun _ => none)

/-- The line-delimited JSON sink after the first run: still missing when
the run persisted nothing, otherwise overwritten with the flushed
batch. -/
def jsonSinkAfterFirstRun (pages : List (Except String (List Resume))) :
    Option (List Resume) :=
  match (firstRun pages).persistCalls with
  | [] => none
  | b :: _ => some (FileStorage.SaveResumes b)

/-- The tabular CSV sink after the first run. -/
def csvSinkAfterFirstRun (pages : List (Except String (List Resume))) :
    Option (List (List String)) :=
  match (firstRun pages).persistCalls with
  | [] => none
  | b :: _ => some (CSVStorage.SaveResumes b)

/-- Second run with the line-delimited JSON variant: the dedup seed is
read back from the sink the first run left behind. -/
def secondRunJSON (pages : List (Except String (List Resume))) : RunOutput :=
  parseResumesByCriteria
    (FileStorage.GetSavedResumeIDs (jsonSinkAfterFirstRun pages)) pages
    (fun _ => none)

/-- Second run with the tabular CSV variant. -/
def secondRunCSV (pages : List (Except String (List Resume))) : RunOutput :=
  parseResumesByCriteria
    (CSVStorage.GetSavedResumeIDs (csvSinkAfterFirstRun pages)) pages
    (fun _ => none)

/-- Core of the idempotent re-run: when the dedup seed holds exactly the
identifiers the first run flushed, a repeat run over the same fetch
responses saves nothing and skips everything. -/
lemma second_run_core (pages : List (Except String (List Resume)))
    (seed : List String)
    (hseed : ∀ x, x ∈ seed ↔
      x ∈ ((firstRun pages).finalBatch.map Resume.id)) :
    (parseResumesByCriteria (Except.ok seed) pages
        (fun _ => none)).result.savedCount = 0 ∧
    (parseResumesByCriteria (Except.ok seed) pages
        (fun _ => none)).result.skippedCount
      = (parseResumesByCriteria (Except.ok seed) pages
          (fun _ => none)).result.processedCount := by
  have hfb : (firstRun pages).finalBatch
      = ((consumedRecords pages).foldl processRecord
          (initState (FileStorage.GetSavedResumeIDs none))).batch :=
    (parse_project (FileStorage.GetSavedResumeIDs none) pages
      (fun _ => none)).2.2.2.2.1
  have hcov := foldl_coverage (consumedRecords pages)
    (initState (FileStorage.GetSavedResumeIDs none))
  have hids := foldl_processed_batch_ids (consumedRecords pages)
    (initState (FileStorage.GetSavedResumeIDs none))
    (by intro x; simp [initState, seedOf, FileStorage.GetSavedResumeIDs])
  have hskip : ∀ r ∈ consumedRecords pages,
      r.id ∈ (initState (Except.ok seed)).processed ∨
      validateResume r = false := by
    intro r hr
    rcases hcov r hr with hmem | hv
    · left
      show r.id ∈ seed
      refine (hseed r.id).mpr ?_
      rw [hfb]
      exact (hids r.id).mp hmem
    · right
      exact hv
  have hall := foldl_skipAll (consumedRecords pages)
    (initState (Except.ok seed)) hskip
  have hproj := parse_project (Except.ok seed) pages (fun _ => none)
  constructor
  · rw [hproj.2.1, hall.2.2.1]
    rfl
  · rw [hproj.2.2.1, hproj.1, hall.2.2.2,
      foldl_processedCount (consumedRecords pages) (initState (Except.ok seed))]
    rfl

/-- C1: repeating a run over the same fetch responses against a sink the
first run wrote (line-delimited JSON or tabular CSV variant) saves
nothing: the second run's SavedCount is 0 and its SkippedCount equals its
ProcessedCount. -/
theorem C1_idempotent_rerun (pages : List (Except String (List Resume))) :
    (secondRunJSON pages).result.savedCount = 0 ∧
    (secondRunJSON pages).result.skippedCount
      = (secondRunJSON pages).result.processedCount ∧
    (secondRunCSV pages).result.savedCount = 0 ∧
    (secondRunCSV pages).result.skippedCount
      = (secondRunCSV pages).result.processedCount := by
  rcases parse_persistCalls_cases (FileStorage.GetSavedResumeIDs none) pages
      (fun _ => none) with ⟨hpc, hb⟩ | ⟨hpc, hb⟩
  · have hjson : secondRunJSON pages
        = parseResumesByCriteria (Except.ok []) pages (fun _ => none) := by
      unfold secondRunJSON jsonSinkAfterFirstRun
      rw [show (firstRun pages).persistCalls = [] from hpc]
      rfl
    have hcsv : secondRunCSV pages
        = parseResumesByCriteria (Except.ok []) pages (fun _ => none) := by
      unfold secondRunCSV csvSinkAfterFirstRun
      rw [show (firstRun pages).persistCalls = [] from hpc]
      rfl
    have hcore := second_run_core pages []
      (by intro x; rw [show (firstRun pages).finalBatch = [] from hb]; simp)
    rw [hjson, hcsv]
    exact ⟨hcore.1, hcore.2, hcore.1, hcore.2⟩
  · have hjson : secondRunJSON pages
        = parseResumesByCriteria
            (Except.ok ((firstRun pages).finalBatch.map Resume.id)) pages
            (fun _ => none) := by
      unfold secondRunJSON jsonSinkAfterFirstRun
      rw [show (firstRun pages).persistCalls
          = [(firstRun pages).finalBatch] from hpc]
      rfl
    have hcsv : secondRunCSV pages
        = parseResumesByCriteria
            (Except.ok ((firstRun pages).finalBatch.map Resume.id)) pages
            (fun _ => none) := by
      unfold secondRunCSV csvSinkAfterFirstRun
      rw [show (firstRun pages).persistCalls
          = [(firstRun pages).finalBatch] from hpc]
      show parseResumesByCriteria
        (CSVStorage.GetSavedResumeIDs
          (some (CSVStorage.SaveResumes ((firstRun pages).finalBatch))))
        pages (fun _ => none) = _
      rw [csv_roundtrip]
    have hcore := second_run_core pages
      ((firstRun pages).finalBatch.map Resume.id) (by intro x; rfl)
    rw [hjson, hcsv]
    exact ⟨hcore.1, hcore.2, hcore.1, hcore.2⟩
